import Mathlib

/-!
Verification of the gemlite core (src/gemlite/core.py): the bit-packing
codecs of the two physical layouts, the construction-time validation of the
two linear operators, and the Triton autotune cache.

Modelling conventions.

Tensors: a 2-D torch tensor is embedded as a function `Nat → Nat → Nat`
together with its shape, carried separately.  torch views and reshapes are
row-major reinterpretations of the flat buffer, so they become explicit
index arithmetic (`f / w`, `f % w`).

Machine integers: the packed buffers are `torch.int32`.  Bitwise `|`, `<<`,
`>>` and `& mask` act on the 32-bit two's-complement pattern; we represent
the pattern by the corresponding `Nat < 2^32`.  Every left shift in the
source moves a code `< 2^n` by at most `32 - n` bits, so the `Nat` value
stays below `2^32` and no wrap occurs.  torch's right shift on `int32` is
arithmetic, but each shifted value is immediately masked with `& (2^n - 1)`
(`n ≤ 8`), and on the low `n` bits the arithmetic and logical shifts agree
for the shift amounts used (`shift ≤ 32 - n`); the `Nat` model is therefore
bit-exact.

Python exceptions become an `Except Err` layer; each `Err` constructor
names the failure site in the source.
-/

namespace GemLite

/-- Value dtypes of `core.DType` (core.py lines 15-21). -/
inductive DType
  | FP16 | BF16 | FP32 | INT8 | INT32 | FP16D8
deriving DecidableEq, Repr

/-- Failure modes of the embedded operations, one per python raise site:
`UnsupportedBitWidth` is the `NotImplementedError` of core.py line 212,
`InvalidShape` the one of line 214, `UnsupportedConfiguration` the one of
line 83, `KeyError` the dict lookup of lines 69/76, `TypeError` the `%`
against `None` on line 70, `ZeroDivision` a `%` against `0`,
`AttributeError` a read of a never-assigned instance attribute,
`AssertionError` the assert of line 116, and `MetadataShapeMismatch` a
failing `reshape` of metadata (line 291). -/
inductive Err
  | UnsupportedBitWidth
  | InvalidShape
  | UnsupportedConfiguration
  | KeyError
  | TypeError
  | ZeroDivision
  | AttributeError
  | AssertionError
  | MetadataShapeMismatch
  | ShapeMismatch
deriving DecidableEq, Repr

/-- A 2-D tensor of nonnegative integer entries, as a total function on
indices; the shape is carried separately by each operation. -/
abbrev Mat := Nat → Nat → Nat

/-! ## Bit-field extraction

Both packing layouts build each 32-bit word as a fold of
`acc ||| code i <<< (shift i)` over the `32 / n` code indices, with the
shifts `shift i = σ i * n` pairwise distinct multiples of the bit-width.
The lemmas here recover each code from such a word. -/

theorem foldl_congr_of_mem {α β : Type} (l : List β) (f g : α → β → α) (a : α)
    (h : ∀ acc, ∀ x ∈ l, f acc x = g acc x) : l.foldl f a = l.foldl g a := by
  induction l generalizing a with
  | nil => rfl
  | cons x xs ih =>
    simp only [List.foldl_cons]
    rw [h a x (by simp)]
    exact ih _ fun acc y hy => h acc y (by simp [hy])

theorem testBit_foldl_lor (f : Nat → Nat) (l : List Nat) (a : Nat) (b : Nat) :
    (l.foldl (fun acc i => acc ||| f i) a).testBit b =
      (a.testBit b || l.any fun i => (f i).testBit b) := by
  induction l generalizing a with
  | nil => simp
  | cons x xs ih =>
    simp only [List.foldl_cons, List.any_cons, ih, Nat.testBit_or]
    rw [Bool.or_assoc]

theorem any_eq_of_unique {l : List Nat} {f : Nat → Bool} {j : Nat} (hj : j ∈ l)
    (h : ∀ i ∈ l, i ≠ j → f i = false) : l.any f = f j := by
  cases hfj : f j with
  | true => exact List.any_eq_true.mpr ⟨j, hj, hfj⟩
  | false =>
    refine List.any_eq_false.mpr ?_
    intro i hi
    by_cases hij : i = j
    · rw [hij, hfj]
      simp
    · rw [h i hi hij]
      simp

/-- Extracting field `j` from a word assembled by OR-ing codes into pairwise
disjoint n-bit fields: the fold is the source's packing loop, the left side
of the equation is the unpacking read `(word >> shift) & (2^n - 1)`. -/
theorem extract_packWord (n m : Nat) (x s : Nat → Nat)
    (hdisj : ∀ i, i < m → ∀ j, j < m → i ≠ j → s i + n ≤ s j ∨ s j + n ≤ s i)
    (hx : ∀ i, i < m → x i < 2 ^ n) (j : Nat) (hj : j < m) :
    (((List.range m).foldl (fun acc i => acc ||| x i <<< s i) 0) >>> s j) % 2 ^ n
      = x j := by
  apply Nat.eq_of_testBit_eq
  intro b
  rw [Nat.testBit_mod_two_pow, Nat.testBit_shiftRight, testBit_foldl_lor]
  simp only [Nat.zero_testBit, Bool.false_or]
  by_cases hb : b < n
  · rw [any_eq_of_unique (List.mem_range.mpr hj) ?_]
    · rw [Nat.testBit_shiftLeft]
      simp [Nat.le_add_right, Nat.add_sub_cancel_left, hb]
    · intro i hi hne
      have him : i < m := List.mem_range.mp hi
      rw [Nat.testBit_shiftLeft]
      rcases hdisj i him j hj hne with hlo | hhi
      · have hgap : n ≤ s j + b - s i := by omega
        rw [Nat.testBit_lt_two_pow (Nat.lt_of_lt_of_le (hx i him)
              (Nat.pow_le_pow_right (by omega) hgap))]
        simp
      · simp [Nat.not_le.mpr (by omega : s j + b < s i)]
  · simp only [decide_eq_false (by omega : ¬ b < n), Bool.false_and]
    exact (Nat.testBit_lt_two_pow (Nat.lt_of_lt_of_le (hx j hj)
      (Nat.pow_le_pow_right (by omega) (by omega)))).symm

/-! ## Layout A: the GemLiteLinearCUDA bit-packing codec
(core.py lines 96-151). -/

/-- tile_size = threads_per_group = warp_size // cols_per_warp = 32
(core.py lines 39-42 and 97). -/
def tile_size : Nat := 32

/-- step = 32 // W_nbits (line 99): the number of codes per 32-bit word. -/
def stepOf (n : Nat) : Nat := 32 / n

/-- Column count after the trailing-edge zero padding of lines 100-103:
`step * ceil(cols / step)`. -/
def padWidth (n cols : Nat) : Nat := stepOf n * ((cols + stepOf n - 1) / stepOf n)

/-- `torch.nn.functional.pad(W_q, pad=(0, pad), value=0)` (line 103): the
original row up to column `cols`, zeros on the trailing edge. -/
def padRow (cols : Nat) (W : Mat) : Mat := fun r c => if c < cols then W r c else 0

/-- Row-major flat buffer of the padded `(rows, padWidth)` tensor. -/
def flatPadded (n cols : Nat) (W : Mat) : Nat → Nat :=
  fun f => padRow cols W (f / padWidth n cols) (f % padWidth n cols)

/-- The `W_q.reshape(-1, tile_size)` view of line 106: the flattened tile. -/
def tileView (n cols : Nat) (W : Mat) : Mat :=
  fun t j => flatPadded n cols W (t * tile_size + j)

/-- The packing loop of lines 108-113: starting from `shift = 32` and
decrementing by `W_nbits` before each step, the word is the bitwise OR of
the codes shifted to `32 - (i+1)*n`, code 0 highest. -/
def packWord (n : Nat) (code : Nat → Nat) : Nat :=
  (List.range (stepOf n)).foldl (fun acc i => acc ||| code i <<< (32 - (i + 1) * n)) 0

/-- `W_q_packed` before the final reshape: its row `p`, column `j` combines
element `p` of each stride-`step` row slice `W_q[i::step]` of the tile view,
that is tile rows `i + p*step`, most-significant code first. -/
def packedTile (n cols : Nat) (W : Mat) : Mat :=
  fun p j => packWord n (fun i => tileView n cols W (i + p * stepOf n) j)

/-- The final `W_q_packed.reshape(W_shape[0], W_shape[1] // step)` of
line 115, reinterpreting the packed tile's flat buffer row-major. -/
def packCUDAVal (n cols : Nat) (W : Mat) : Mat :=
  fun r c =>
    packedTile n cols W ((r * (padWidth n cols / stepOf n) + c) / tile_size)
      ((r * (padWidth n cols / stepOf n) + c) % tile_size)

/-- GemLiteLinearCUDA.pack's weight transform (lines 96-115) together with
torch's runtime shape checks: `.reshape(-1, tile_size)` requires the padded
element count to be a multiple of 32, and the `|=` loop requires the
stride-`step` row slices of the tile to have equal length. Returns the
packed shape `(rows, padWidth // step)` and the packed data. -/
def packCUDA (n rows cols : Nat) (W : Mat) : Except Err (Nat × Nat × Mat) :=
  if rows * padWidth n cols % tile_size ≠ 0 then .error .ShapeMismatch
  else if rows * padWidth n cols / tile_size % stepOf n ≠ 0 then .error .ShapeMismatch
  else .ok (rows, padWidth n cols / stepOf n, packCUDAVal n cols W)

/-- The `self.W_q_packed.view((-1, tile_size))` of line 142 applied to a
packed tensor of `pcols` columns. -/
def packedTileOf (pcols : Nat) (P : Mat) : Mat :=
  fun q j => P ((q * tile_size + j) / pcols) ((q * tile_size + j) % pcols)

/-- The unpacking arithmetic of GemLiteLinearCUDA.unpack (lines 138-151):
`W_r[i::step] = (W_q_packed >> shift) & mask` with `shift = 32 - (i+1)*n`,
read back through the final `.view(W_shape)` with
`W_shape = (prows, pcols * step)`. -/
def unpackCUDAVal (n pcols : Nat) (P : Mat) : Mat :=
  fun r c =>
    let f := r * (pcols * stepOf n) + c
    (packedTileOf pcols P (f / tile_size / stepOf n) (f % tile_size)
        >>> (32 - (f / tile_size % stepOf n + 1) * n)) &&& (2 ^ n - 1)

theorem padRow_lt (n cols : Nat) (W : Mat) (hW : ∀ r c, W r c < 2 ^ n) :
    ∀ r c, padRow cols W r c < 2 ^ n := by
  intro r c
  unfold padRow
  split
  · exact hW r c
  · exact Nat.pos_pow_of_pos n (by omega)

theorem tileView_lt (n cols : Nat) (W : Mat) (hW : ∀ r c, W r c < 2 ^ n) :
    ∀ t j, tileView n cols W t j < 2 ^ n := by
  intro t j
  exact padRow_lt n cols W hW _ _

/-- Each n-bit field of a Layout A packed-tile word holds the matching code
of the flattened tile, most-significant code first. -/
theorem packedTile_extract (n cols : Nat) (W : Mat)
    (hn : n = 1 ∨ n = 2 ∨ n = 4 ∨ n = 8) (hW : ∀ r c, W r c < 2 ^ n)
    (p j i : Nat) (hi : i < stepOf n) :
    (packedTile n cols W p j >>> (32 - (i + 1) * n)) % 2 ^ n
      = tileView n cols W (i + p * stepOf n) j := by
  unfold packedTile packWord
  exact extract_packWord n (stepOf n) _ (fun i => 32 - (i + 1) * n)
    (by rcases hn with rfl | rfl | rfl | rfl <;>
          (intro a ha b hb hne; simp only [stepOf] at ha hb ⊢; omega))
    (fun a _ => tileView_lt n cols W hW _ _) i hi

/-- C6: Layout A packing (GemLiteLinearCUDA.pack) produces a packed tensor
of shape `(rows, ceil(cols / k))` with `k = 32 / n`; the word at position
`(r, c)` — element `f = r * (padWidth/k) + c` of the flat packed buffer,
hence element `f / 32` of each stride-`k` slice of the flattened tile — is
the bitwise OR of those `k` source rows, most-significant code first: for
each code index `i < k`, bits `[32-(i+1)n, 32-i·n)` of the word hold tile
row `i + (f/32)·k` at tile column `f % 32`, so code 0 occupies the top `n`
bits and code `k-1` the bottom `n` bits; and the input is zero-padded on
the trailing edge (columns past `cols`) before packing. -/
theorem cuda_pack_layout (n rows cols : Nat) (W : Mat)
    (hn : n = 1 ∨ n = 2 ∨ n = 4 ∨ n = 8)
    (hW : ∀ r c, W r c < 2 ^ n)
    (h32 : rows * padWidth n cols % tile_size = 0)
    (hstep : rows * padWidth n cols / tile_size % stepOf n = 0) :
    packCUDA n rows cols W
        = .ok (rows, (cols + stepOf n - 1) / stepOf n, packCUDAVal n cols W) ∧
    (∀ r c, cols ≤ c → padRow cols W r c = 0) ∧
    (∀ r c i, i < stepOf n →
      (packCUDAVal n cols W r c >>> (32 - (i + 1) * n)) % 2 ^ n
        = tileView n cols W
            (i + (r * (padWidth n cols / stepOf n) + c) / tile_size * stepOf n)
            ((r * (padWidth n cols / stepOf n) + c) % tile_size)) := by
  have hstep0 : 0 < stepOf n := by
    rcases hn with rfl | rfl | rfl | rfl <;> decide
  refine ⟨?_, ?_, ?_⟩
  · unfold packCUDA
    rw [if_neg (by omega), if_neg (by omega)]
    have : padWidth n cols / stepOf n = (cols + stepOf n - 1) / stepOf n := by
      unfold padWidth
      exact Nat.mul_div_cancel_left _ hstep0
    rw [this]
  · intro r c hc
    unfold padRow
    rw [if_neg (by omega)]
  · intro r c i hi
    exact packedTile_extract n cols W hn hW _ _ i hi

/-- Witness for cuda_pack_layout: n = 8 (k = 4), a 16 × 8 code tensor of
constant code 7; the padded width is 8, the tile has 4 rows. -/
theorem cuda_pack_layout_witness :
    ((8 = 1 ∨ 8 = 2 ∨ 8 = 4 ∨ 8 = 8) ∧
     16 * padWidth 8 8 % tile_size = 0 ∧
     16 * padWidth 8 8 / tile_size % stepOf 8 = 0) ∧
    (packCUDA 8 16 8 (fun _ _ => 7)
        = .ok (16, (8 + stepOf 8 - 1) / stepOf 8, packCUDAVal 8 8 (fun _ _ => 7)) ∧
     (∀ r c, 8 ≤ c → padRow 8 (fun _ _ => 7) r c = 0) ∧
     (∀ r c i, i < stepOf 8 →
       (packCUDAVal 8 8 (fun _ _ => 7) r c >>> (32 - (i + 1) * 8)) % 2 ^ 8
         = tileView 8 8 (fun _ _ => 7)
             (i + (r * (padWidth 8 8 / stepOf 8) + c) / tile_size * stepOf 8)
             ((r * (padWidth 8 8 / stepOf 8) + c) % tile_size))) :=
  ⟨⟨by decide, by decide, by decide⟩,
   cuda_pack_layout 8 16 8 (fun _ _ => 7) (by decide)
     (fun _ _ => (by decide : (7 : Nat) < 2 ^ 8)) (by decide) (by decide)⟩

theorem packedTileOf_pack (n cols : Nat) (W : Mat) (q j : Nat) (hj : j < tile_size) :
    packedTileOf (padWidth n cols / stepOf n) (packCUDAVal n cols W) q j
      = packedTile n cols W q j := by
  unfold packedTileOf packCUDAVal
  have h1 : (q * tile_size + j) / (padWidth n cols / stepOf n) * (padWidth n cols / stepOf n)
      + (q * tile_size + j) % (padWidth n cols / stepOf n) = q * tile_size + j := by
    rw [Nat.mul_comm]
    exact Nat.div_add_mod _ _
  rw [h1]
  unfold tile_size at *
  congr 1
  · omega
  · omega

/-- The Layout A transform is mathematically lossless: reading the packed
tensor (with its packed column count) back through unpack's arithmetic
(lines 138-151) recovers every original code. The unpack method never
reaches this arithmetic on a freshly packed operator, because it reads the
never-assigned attribute `self.W_q_packed` (see
cuda_unpack_ignores_argument); this lemma settles that the packing
arithmetic itself loses nothing. -/
theorem cuda_codec_lossless (n cols : Nat) (W : Mat)
    (hn : n = 1 ∨ n = 2 ∨ n = 4 ∨ n = 8) (hW : ∀ r c, W r c < 2 ^ n)
    (r c : Nat) (hc : c < cols) :
    unpackCUDAVal n (padWidth n cols / stepOf n) (packCUDAVal n cols W) r c = W r c := by
  have hk0 : 0 < stepOf n := by rcases hn with rfl | rfl | rfl | rfl <;> decide
  have hwck : padWidth n cols / stepOf n * stepOf n = padWidth n cols := by
    unfold padWidth
    rw [Nat.mul_div_cancel_left _ hk0, Nat.mul_comm]
  have hcolsw : cols ≤ padWidth n cols := by
    have hdm := Nat.div_add_mod (cols + stepOf n - 1) (stepOf n)
    have hml := Nat.mod_lt (cols + stepOf n - 1) hk0
    unfold padWidth
    omega
  have hcw : c < padWidth n cols := lt_of_lt_of_le hc hcolsw
  have hw0 : 0 < padWidth n cols := lt_of_le_of_lt (Nat.zero_le c) hcw
  simp only [unpackCUDAVal]
  rw [hwck]
  rw [packedTileOf_pack n cols W _ _ (Nat.mod_lt _ (by decide))]
  rw [Nat.and_pow_two_sub_one_eq_mod]
  rw [packedTile_extract n cols W hn hW _ _ _ (Nat.mod_lt _ hk0)]
  have hrow : (r * padWidth n cols + c) / tile_size % stepOf n
      + (r * padWidth n cols + c) / tile_size / stepOf n * stepOf n
      = (r * padWidth n cols + c) / tile_size := by
    rw [Nat.mul_comm ((r * padWidth n cols + c) / tile_size / stepOf n) (stepOf n)]
    have := Nat.div_add_mod ((r * padWidth n cols + c) / tile_size) (stepOf n)
    omega
  rw [hrow]
  unfold tileView
  have hfl : (r * padWidth n cols + c) / tile_size * tile_size
      + (r * padWidth n cols + c) % tile_size = r * padWidth n cols + c := by
    unfold tile_size
    omega
  rw [hfl]
  unfold flatPadded
  have hfd : (r * padWidth n cols + c) / padWidth n cols = r := by
    rw [Nat.mul_comm, Nat.mul_add_div hw0, Nat.div_eq_of_lt hcw]
    omega
  have hfm : (r * padWidth n cols + c) % padWidth n cols = c := by
    rw [Nat.mul_comm, Nat.mul_add_mod]
    exact Nat.mod_eq_of_lt hcw
  rw [hfd, hfm]
  unfold padRow
  rw [if_pos hc]

/-! ## The GemLiteLinearCUDA operator (core.py lines 38-160)

Instance attributes that the python object acquires only when some method
assigns them are modelled as `Option` fields, `none` meaning the attribute
does not exist (reading it raises `AttributeError`). `__init__` assigns
`W_q` through neither path, and no method of the class ever assigns
`W_q_packed`. -/

structure CudaState where
  in_features : Nat
  out_features : Nat
  W_nbits : Nat
  group_size : Nat
  input_dtype : DType
  output_dtype : DType
  zero_is_tensor : Bool
  has_scales : Bool
  /-- assigned by pack (line 115): packed shape and data -/
  W_q : Option (Nat × Nat × Mat) := none
  /-- assigned by pack (lines 118-125) -/
  scales : Option Mat := none
  /-- assigned by pack (lines 127-131) -/
  zeros : Option Mat := none
  /-- assigned by pack (line 133) -/
  bias : Option Mat := none
  /-- never assigned anywhere in the class -/
  W_q_packed : Option (Nat × Nat × Mat) := none

/-- GemLiteLinearCUDA.__init__ (lines 45-93). The FP16/FP16 path looks its
kernel up in GEMLITE_GEMV_FP16_INPUT_FP16_OUTPUT (keys 8, 4, 2; a missing
key raises KeyError) and sets `forward_raw` only when `group_size` divides
`in_features * out_features` (line 70 applies `%` to the raw argument, so a
`None` group size raises TypeError there and a zero one ZeroDivisionError);
the INT8/INT32 path requires `group_size == in_features * out_features`.
If no branch set `forward_raw`, line 83 raises NotImplementedError. -/
def cudaInit (W_nbits : Nat) (group_size : Option Nat) (in_features out_features : Nat)
    (input_dtype output_dtype : DType) : Except Err CudaState :=
  if input_dtype = DType.FP16 ∧ output_dtype = DType.FP16 then
    if W_nbits = 8 ∨ W_nbits = 4 ∨ W_nbits = 2 then
      match group_size with
      | none => .error .TypeError
      | some g =>
        if g = 0 then .error .ZeroDivision
        else if in_features * out_features % g = 0 then
          .ok { in_features, out_features, W_nbits, group_size := g,
                input_dtype, output_dtype, zero_is_tensor := true, has_scales := true }
        else .error .UnsupportedConfiguration
    else .error .KeyError
  else if input_dtype = DType.INT8 ∧ output_dtype = DType.INT32 then
    if W_nbits = 8 ∨ W_nbits = 4 ∨ W_nbits = 2 then
      if group_size = some (in_features * out_features) then
        .ok { in_features, out_features, W_nbits,
              group_size := group_size.getD in_features,
              input_dtype, output_dtype, zero_is_tensor := false, has_scales := false }
      else .error .UnsupportedConfiguration
    else .error .KeyError
  else .error .UnsupportedConfiguration

/-- GemLiteLinearCUDA.pack (lines 96-136): packs the weight into `self.W_q`,
checks the scales assert of line 116, and stores scales / zeros / bias. The
scalar-vs-tensor wrapping of scales and zeros (lines 118-131) only converts
python scalars to 1x1 tensors, so both cases are carried as a `Mat`. The
method returns `self`; `self.W_q_packed` is not among its assignments. -/
def cudaPack (st : CudaState) (rows cols : Nat) (W : Mat)
    (scalesArg zerosArg biasArg : Option Mat) : Except Err CudaState :=
  match packCUDA st.W_nbits rows cols W with
  | .error e => .error e
  | .ok packed =>
    if st.has_scales = scalesArg.isSome then
      .ok { st with W_q := some packed, scales := scalesArg, zeros := zerosArg,
                    bias := biasArg }
    else .error .AssertionError

/-- GemLiteLinearCUDA.unpack (lines 138-151). The method takes a
`W_q_packed` parameter but every read inside the body is of the instance
attribute `self.W_q_packed`; the parameter is dead. If the attribute was
never assigned the read raises AttributeError; otherwise the view on line
142 requires the element count to be a multiple of tile_size. -/
def cudaUnpack (st : CudaState) (W_q_packed_arg : Nat × Nat × Mat) :
    Except Err (Nat × Nat × Mat) :=
  match st.W_q_packed with
  | none => .error .AttributeError
  | some (prows, pcols, P) =>
    if prows * pcols % tile_size = 0 then
      .ok (prows, pcols * stepOf st.W_nbits, unpackCUDAVal st.W_nbits pcols P)
    else .error .ShapeMismatch

/-- C9: GemLiteLinearCUDA.unpack never reads its `W_q_packed` parameter —
its result depends only on the instance state, in particular on the
attribute `self.W_q_packed`; since `__init__` never creates that attribute
and pack assigns `self.W_q` but never `self.W_q_packed`, on any operator on
which only `__init__` and pack have been called every unpack call raises
AttributeError, whatever the argument. -/
theorem cuda_unpack_ignores_argument
    (nb : Nat) (gs : Option Nat) (inF outF : Nat) (idt odt : DType)
    (st st' : CudaState) (rows cols : Nat) (W : Mat) (sc z b : Option Mat)
    (hinit : cudaInit nb gs inF outF idt odt = .ok st)
    (hpack : cudaPack st rows cols W sc z b = .ok st') :
    (∀ s p₁ p₂, cudaUnpack s p₁ = cudaUnpack s p₂) ∧
    st.W_q_packed = none ∧
    st'.W_q_packed = none ∧
    st'.W_q ≠ none ∧
    (∀ p, cudaUnpack st' p = .error .AttributeError) := by
  have hst : st.W_q_packed = none := by
    unfold cudaInit at hinit
    split at hinit
    · split at hinit
      · split at hinit
        · exact absurd hinit (by simp)
        · split at hinit
          · exact absurd hinit (by simp)
          · split at hinit
            · cases hinit; rfl
            · exact absurd hinit (by simp)
      · exact absurd hinit (by simp)
    · split at hinit
      · split at hinit
        · split at hinit
          · cases hinit; rfl
          · exact absurd hinit (by simp)
        · exact absurd hinit (by simp)
      · exact absurd hinit (by simp)
  have hst' : st'.W_q_packed = none ∧ st'.W_q ≠ none := by
    unfold cudaPack at hpack
    split at hpack
    · exact absurd hpack (by simp)
    · split at hpack
      · cases hpack
        exact ⟨hst, by simp⟩
      · exact absurd hpack (by simp)
  refine ⟨fun s p₁ p₂ => rfl, hst, hst'.1, hst'.2, fun p => ?_⟩
  unfold cudaUnpack
  rw [hst'.1]

/-- Witness for cuda_unpack_ignores_argument: an 8-bit FP16 operator with
in_features = out_features = 32 and group_size 1024, packed with a concrete
code tensor. -/
theorem cuda_unpack_ignores_argument_witness :
    (cudaInit 8 (some 1024) 32 32 DType.FP16 DType.FP16
        = .ok { in_features := 32, out_features := 32, W_nbits := 8,
                group_size := 1024, input_dtype := DType.FP16,
                output_dtype := DType.FP16, zero_is_tensor := true,
                has_scales := true } ∧
     cudaPack { in_features := 32, out_features := 32, W_nbits := 8,
                group_size := 1024, input_dtype := DType.FP16,
                output_dtype := DType.FP16, zero_is_tensor := true,
                has_scales := true } 32 32 (fun r c => (r + c) % 256)
         (some fun _ _ => 1) (some fun _ _ => 0) none
        = .ok { in_features := 32, out_features := 32, W_nbits := 8,
                group_size := 1024, input_dtype := DType.FP16,
                output_dtype := DType.FP16, zero_is_tensor := true,
                has_scales := true,
                W_q := some (32, 8, packCUDAVal 8 32 (fun r c => (r + c) % 256)),
                scales := some fun _ _ => 1, zeros := some fun _ _ => 0,
                bias := none }) ∧
    ((∀ s p₁ p₂, cudaUnpack s p₁ = cudaUnpack s p₂) ∧
     ({ in_features := 32, out_features := 32, W_nbits := 8,
        group_size := 1024, input_dtype := DType.FP16,
        output_dtype := DType.FP16, zero_is_tensor := true,
        has_scales := true } : CudaState).W_q_packed = none ∧
     ({ in_features := 32, out_features := 32, W_nbits := 8,
        group_size := 1024, input_dtype := DType.FP16,
        output_dtype := DType.FP16, zero_is_tensor := true,
        has_scales := true,
        W_q := some (32, 8, packCUDAVal 8 32 (fun r c => (r + c) % 256)),
        scales := some fun _ _ => 1, zeros := some fun _ _ => 0,
        bias := none } : CudaState).W_q_packed = none ∧
     ({ in_features := 32, out_features := 32, W_nbits := 8,
        group_size := 1024, input_dtype := DType.FP16,
        output_dtype := DType.FP16, zero_is_tensor := true,
        has_scales := true,
        W_q := some (32, 8, packCUDAVal 8 32 (fun r c => (r + c) % 256)),
        scales := some fun _ _ => 1, zeros := some fun _ _ => 0,
        bias := none } : CudaState).W_q ≠ none ∧
     (∀ p, cudaUnpack
        { in_features := 32, out_features := 32, W_nbits := 8,
          group_size := 1024, input_dtype := DType.FP16,
          output_dtype := DType.FP16, zero_is_tensor := true,
          has_scales := true,
          W_q := some (32, 8, packCUDAVal 8 32 (fun r c => (r + c) % 256)),
          scales := some fun _ _ => 1, zeros := some fun _ _ => 0,
          bias := none } p = .error .AttributeError)) :=
  ⟨⟨rfl, rfl⟩,
   cuda_unpack_ignores_argument 8 (some 1024) 32 32 DType.FP16 DType.FP16
     _ _ 32 32 (fun r c => (r + c) % 256) (some fun _ _ => 1) (some fun _ _ => 0)
     none rfl rfl⟩

/-- C1 evaluated at a failing input: an 8-bit FP16 Layout A operator on a
32 x 32 code tensor; `unpack(pack(codes))` — pack, then unpack applied to
the operator's own packed tensor — raises AttributeError instead of
returning the codes, because unpack reads the never-assigned attribute
`self.W_q_packed`. (cuda_codec_lossless shows the packing arithmetic itself
is reversible, so the round-trip property is the evident intent.) -/
theorem cuda_roundtrip_raises :
    (cudaInit 8 (some 1024) 32 32 DType.FP16 DType.FP16).bind
      (fun st => (cudaPack st 32 32 (fun r c => (r + c) % 256)
          (some fun _ _ => 1) (some fun _ _ => 0) none).bind
        (fun st' => cudaUnpack st' (st'.W_q.getD (0, 0, fun _ _ => 0))))
      = .error .AttributeError := rfl

/-! ## The GemLiteLinearTriton operator (core.py lines 197-358) -/

/-- A kernel module from `.triton_kernels`: the operator only inspects its
`matmul_type` attribute and stores or invokes its `forward` entry point, so
each compute kernel — an external collaborator — is an opaque tag. -/
inductive TritonKernel
  | gemm_A16fWnO16f_int32packing
  | gemv_A16fWnO16f_int32packing
deriving DecidableEq, Repr

def TritonKernel.matmul_type : TritonKernel → String
  | .gemm_A16fWnO16f_int32packing => "GEMM"
  | .gemv_A16fWnO16f_int32packing => "GEMV"

/-- `self.kernels` for the FP16/FP16 configuration (line 230): GEMM first,
GEMV second. -/
def kernelsFP16 : List TritonKernel :=
  [.gemm_A16fWnO16f_int32packing, .gemv_A16fWnO16f_int32packing]

/-- `self.kernels` for the BF16/BF16 configuration (line 233). -/
def kernelsBF16 : List TritonKernel := [.gemm_A16fWnO16f_int32packing]

/-- cdiv (line 193). -/
def cdiv (a b : Nat) : Nat := (a + b - 1) / b

structure TritonState where
  in_features : Nat
  out_features : Nat
  W_nbits : Nat
  group_size : Nat
  unpack_mask : Nat
  elements_per_sample : Nat
  /-- line 223: the group component is the raw constructor argument, which
  may be `None` -/
  signature : Nat × Nat × Nat × Option Nat
  input_dtype : DType
  output_dtype : DType
  kernels : List TritonKernel
  /-- the meta-device buffers of lines 249-270 carry no data, only shape -/
  W_q_shape : Nat × Nat
  scales_shape : Nat × Nat
  zeros_shape : Nat × Nat
deriving DecidableEq, Repr

/-- The state a successful GemLiteLinearTriton.__init__ constructs
(lines 216-270), given the kernel list its dtype branch selected. -/
def tritonStateOf (W_nbits : Nat) (group_size : Option Nat) (inF outF : Nat)
    (idt odt : DType) (ks : List TritonKernel) : TritonState :=
  { in_features := inF, out_features := outF, W_nbits,
    group_size := group_size.getD inF,
    unpack_mask := 2 ^ W_nbits - 1,
    elements_per_sample := 32 / W_nbits,
    signature := (inF, outF, W_nbits, group_size),
    input_dtype := idt, output_dtype := odt, kernels := ks,
    W_q_shape := (inF / 32 * W_nbits, outF),
    scales_shape := (cdiv inF (group_size.getD inF), outF),
    zeros_shape := (cdiv inF (group_size.getD inF), outF) }

/-- GemLiteLinearTriton.__init__ (lines 198-272), check for check: first
the bit-width test of lines 211-212 (raises for `W_nbits` outside
`[1, 2, 4, 8]`), then the shape test of lines 213-214 (raises unless both
feature dimensions are multiples of 128), then the dtype dispatch of lines
228-240 selecting the kernel list (raising if no combination matched), and
only then the buffer allocations. No group-size condition is tested. -/
def tritonInit (W_nbits : Nat) (group_size : Option Nat) (inF outF : Nat)
    (idt odt : DType) : Except Err TritonState :=
  if W_nbits = 1 ∨ W_nbits = 2 ∨ W_nbits = 4 ∨ W_nbits = 8 then
    if inF % 128 ≠ 0 ∨ outF % 128 ≠ 0 then .error .InvalidShape
    else
      match (if idt = DType.FP16 ∧ odt = DType.FP16 then some kernelsFP16
             else if idt = DType.BF16 ∧ odt = DType.BF16 then some kernelsBF16
             else none) with
      | none => .error .UnsupportedConfiguration
      | some ks => .ok (tritonStateOf W_nbits group_size inF outF idt odt ks)
  else .error .UnsupportedBitWidth

/-- The packing loop of GemLiteLinearTriton.pack (lines 276-287): the code
tensor `W` of shape `(out_features, in_features)` is transposed so the
reduction dimension leads (the swapped index order `W c (...)` below), and
the word at packed row `row`, column `c` ORs the `step = 32/n` consecutive
transposed rows `row*step + j`, the shift starting at 0 and growing by `n`
per element: least-significant code at the lowest input index. -/
def packTritonVal (n : Nat) (W : Mat) : Mat :=
  fun row c =>
    (List.range (stepOf n)).foldl
      (fun acc j => acc ||| W c (row * stepOf n + j) <<< (j * n)) 0

/-- Shape of the packed buffer allocated on line 277:
`(in_features // 32 * W_nbits, out_features)`. -/
def packTritonShape (n inF outF : Nat) : Nat × Nat := (inF / 32 * n, outF)

/-- GemLiteLinearTriton.pack (lines 275-295): packs the weight, then
reshapes scales and zeros to `(out_features, num_groups)` with
`num_groups = in_features // group_size` (floor division, line 290) and
transposes them to `(num_groups, out_features)`. A torch reshape whose
target element count differs from the tensor's raises a RuntimeError,
modelled as MetadataShapeMismatch. Returns the packed weight (shape and
data) and the transposed metadata shape. -/
def tritonPack (st : TritonState) (W : Mat) (scalesNumel zerosNumel : Nat) :
    Except Err ((Nat × Nat × Mat) × (Nat × Nat)) :=
  let packed := ((packTritonShape st.W_nbits st.in_features st.out_features).1,
                 (packTritonShape st.W_nbits st.in_features st.out_features).2,
                 packTritonVal st.W_nbits W)
  let num_groups := st.in_features / st.group_size
  if scalesNumel ≠ st.out_features * num_groups then .error .MetadataShapeMismatch
  else if zerosNumel ≠ st.out_features * num_groups then .error .MetadataShapeMismatch
  else .ok (packed, (num_groups, st.out_features))

/-- C4: a bit-width outside {1,2,4,8} makes GemLiteLinearTriton
construction fail with the unsupported-bit-width error — raised by the
very first check, before any tensor is allocated — and a bit-width inside
the set never produces that error. -/
theorem triton_bitwidth_check (nb : Nat) (gs : Option Nat) (inF outF : Nat)
    (idt odt : DType) :
    tritonInit nb gs inF outF idt odt = .error .UnsupportedBitWidth
      ↔ ¬ (nb = 1 ∨ nb = 2 ∨ nb = 4 ∨ nb = 8) := by
  unfold tritonInit
  by_cases hmem : nb = 1 ∨ nb = 2 ∨ nb = 4 ∨ nb = 8
  · rw [if_pos hmem]
    constructor
    · intro h
      split at h
      · exact absurd h (by simp)
      · split at h
        · exact absurd h (by simp)
        · exact absurd h (by simp)
    · intro h
      exact absurd hmem h
  · rw [if_neg hmem]
    simp [hmem]

/-- Witness for triton_bitwidth_check at the spec's own scenario: requested
bit-width 3. -/
theorem triton_bitwidth_check_witness :
    tritonInit 3 (some 64) 128 128 DType.FP16 DType.FP16
        = .error .UnsupportedBitWidth
      ↔ ¬ (3 = 1 ∨ 3 = 2 ∨ 3 = 4 ∨ 3 = 8) :=
  triton_bitwidth_check 3 (some 64) 128 128 DType.FP16 DType.FP16

/-- C5: with a supported bit-width, GemLiteLinearTriton construction fails
with the invalid-shape error exactly when in_features or out_features is
not a multiple of 128; the check runs before any kernel is selected or
invoked. -/
theorem triton_shape_check (nb : Nat) (gs : Option Nat) (inF outF : Nat)
    (idt odt : DType) (hnb : nb = 1 ∨ nb = 2 ∨ nb = 4 ∨ nb = 8) :
    tritonInit nb gs inF outF idt odt = .error .InvalidShape
      ↔ (inF % 128 ≠ 0 ∨ outF % 128 ≠ 0) := by
  unfold tritonInit
  rw [if_pos hnb]
  by_cases hsh : inF % 128 ≠ 0 ∨ outF % 128 ≠ 0
  · rw [if_pos hsh]
    simp [hsh]
  · rw [if_neg hsh]
    constructor
    · intro h
      split at h
      · exact absurd h (by simp)
      · exact absurd h (by simp)
    · intro h
      exact absurd h hsh

/-- Witness for triton_shape_check: bit-width 4 and in_features = 100, the
spec's own example of a shape that is not a multiple of 128. -/
theorem triton_shape_check_witness :
    (4 = 1 ∨ 4 = 2 ∨ 4 = 4 ∨ 4 = 8) ∧
    (tritonInit 4 (some 64) 100 128 DType.FP16 DType.FP16 = .error .InvalidShape
      ↔ (100 % 128 ≠ 0 ∨ 128 % 128 ≠ 0)) :=
  ⟨by decide, triton_shape_check 4 (some 64) 100 128 DType.FP16 DType.FP16 (by decide)⟩

/-- C3 counterexample: a GemLiteLinearTriton operator with group_size 100,
which does not divide in_features = 128, constructs successfully — the
claimed construction-time failure does not happen. -/
theorem triton_groupsize_unchecked_at_init :
    (tritonInit 4 (some 100) 128 128 DType.FP16 DType.FP16).isOk = true := rfl

theorem cdiv_of_not_dvd (a b : Nat) (hb : 0 < b) (hnd : ¬ b ∣ a) :
    cdiv a b = a / b + 1 := by
  have h1 := Nat.div_add_mod a b
  have h2 : a % b ≠ 0 := fun hc => hnd (Nat.dvd_of_mod_eq_zero hc)
  have h3 : a % b < b := Nat.mod_lt _ hb
  unfold cdiv
  rw [show a + b - 1 = b * (a / b + 1) + (a % b - 1) by rw [Nat.mul_add, Nat.mul_one]; omega]
  rw [Nat.mul_add_div hb]
  rw [Nat.div_eq_of_lt (show a % b - 1 < b by omega)]

/-- C3 amended: the Layout A (CUDA) constructor does reject a group_size
that fails to divide `in_features * out_features` (its FP16 path leaves
`forward_raw` unset and line 83 raises); the Layout B (Triton) constructor
performs no group-size divisibility check at all — construction succeeds,
and with metadata sized for the spec's `ceil(in_features / group_size)`
groups the violation first surfaces inside pack, where the scales reshape
to `(out_features, in_features // group_size)` fails. -/
theorem groupsize_divisibility_checks
    (nbA gA inA outA : Nat) (hA : nbA = 8 ∨ nbA = 4 ∨ nbA = 2) (hgA : gA ≠ 0)
    (hndA : inA * outA % gA ≠ 0)
    (nbB gB inB outB : Nat) (hB : nbB = 1 ∨ nbB = 2 ∨ nbB = 4 ∨ nbB = 8)
    (hgB : 0 < gB) (hinB : inB % 128 = 0) (houtB : outB % 128 = 0)
    (houtBpos : 0 < outB) (hndB : ¬ gB ∣ inB) (W : Mat) :
    cudaInit nbA (some gA) inA outA DType.FP16 DType.FP16
        = .error .UnsupportedConfiguration ∧
    tritonInit nbB (some gB) inB outB DType.FP16 DType.FP16
        = .ok (tritonStateOf nbB (some gB) inB outB DType.FP16 DType.FP16 kernelsFP16) ∧
    tritonPack (tritonStateOf nbB (some gB) inB outB DType.FP16 DType.FP16 kernelsFP16)
        W (outB * cdiv inB gB) (outB * cdiv inB gB)
      = .error .MetadataShapeMismatch := by
  refine ⟨?_, ?_, ?_⟩
  · rcases hA with rfl | rfl | rfl <;> simp [cudaInit, hgA, hndA]
  · unfold tritonInit
    rw [if_pos hB, if_neg (by omega)]
    rw [if_pos ⟨rfl, rfl⟩]
  · have hne : outB * cdiv inB gB ≠ outB * (inB / gB) := by
      rw [cdiv_of_not_dvd inB gB hgB hndB, Nat.mul_add, Nat.mul_one]
      omega
    simp only [tritonPack, tritonStateOf, Option.getD_some]
    rw [if_pos hne]

/-- Witness for groupsize_divisibility_checks: 4-bit operators, CUDA with
`128 * 128` weight elements and group_size 100 (which does not divide
16384), Triton with in_features 128 and group_size 100. -/
theorem groupsize_divisibility_checks_witness :
    ((4 = 8 ∨ 4 = 4 ∨ 4 = 2) ∧ (100 : Nat) ≠ 0 ∧ 128 * 128 % 100 ≠ 0 ∧
     (4 = 1 ∨ 4 = 2 ∨ 4 = 4 ∨ 4 = 8) ∧ (0 : Nat) < 100 ∧ 128 % 128 = 0 ∧
     (0 : Nat) < 128 ∧ ¬ (100 : Nat) ∣ 128) ∧
    (cudaInit 4 (some 100) 128 128 DType.FP16 DType.FP16
        = .error .UnsupportedConfiguration ∧
     tritonInit 4 (some 100) 128 128 DType.FP16 DType.FP16
        = .ok (tritonStateOf 4 (some 100) 128 128 DType.FP16 DType.FP16 kernelsFP16) ∧
     tritonPack (tritonStateOf 4 (some 100) 128 128 DType.FP16 DType.FP16 kernelsFP16)
        (fun _ _ => 3) (128 * cdiv 128 100) (128 * cdiv 128 100)
       = .error .MetadataShapeMismatch) :=
  ⟨⟨by decide, by decide, by decide, by decide, by decide, by decide, by decide, by decide⟩,
   groupsize_divisibility_checks 4 100 128 128 (by decide) (by decide) (by decide)
     4 100 128 128 (by decide) (by decide) (by decide) (by decide) (by decide)
     (by decide) (fun _ _ => 3)⟩

/-- C7: Layout B packing transposes the `(out_features, in_features)` code
tensor (the reduction dimension leads: the packed word at row `row`, column
`c` reads `W c _`), packs each run of `k = 32/n` consecutive elements along
the leading axis into one word least-significant code first — bits
`[j*n, (j+1)*n)` hold the element at input index `row*k + j` — and the
packed buffer has `in_features / k` rows of `out_features` words. -/
theorem triton_pack_layout (n inF outF : Nat) (W : Mat)
    (hn : n = 1 ∨ n = 2 ∨ n = 4 ∨ n = 8) (h32 : inF % 32 = 0)
    (hW : ∀ r c, W r c < 2 ^ n) :
    packTritonShape n inF outF = (inF / stepOf n, outF) ∧
    (∀ row c j, j < stepOf n →
      (packTritonVal n W row c >>> (j * n)) % 2 ^ n = W c (row * stepOf n + j)) := by
  constructor
  · unfold packTritonShape stepOf
    rcases hn with rfl | rfl | rfl | rfl <;>
      (rw [Prod.mk.injEq]; exact ⟨by omega, rfl⟩)
  · intro row c j hj
    unfold packTritonVal
    exact extract_packWord n (stepOf n) _ (fun j => j * n)
      (by rcases hn with rfl | rfl | rfl | rfl <;>
            (intro a ha b hb hne; simp only [stepOf] at ha hb ⊢; omega))
      (fun a _ => hW _ _) j hj

/-- Witness for triton_pack_layout: n = 4 (k = 8), in_features = 128,
out_features = 256, constant code 3. -/
theorem triton_pack_layout_witness :
    ((4 = 1 ∨ 4 = 2 ∨ 4 = 4 ∨ 4 = 8) ∧ 128 % 32 = 0) ∧
    (packTritonShape 4 128 256 = (128 / stepOf 4, 256) ∧
     (∀ row c j, j < stepOf 4 →
       (packTritonVal 4 (fun _ _ => 3) row c >>> (j * 4)) % 2 ^ 4
         = (fun _ _ => (3 : Nat)) c (row * stepOf 4 + j))) :=
  ⟨⟨by decide, by decide⟩,
   triton_pack_layout 4 128 256 (fun _ _ => 3) (by decide) (by decide)
     (fun _ _ => (by decide : (3 : Nat) < 2 ^ 4))⟩

/-! ## The Triton autotune cache (core.py lines 185 and 298-335) -/

/-- The operator signature of line 223:
`(in_features, out_features, W_nbits, group_size)`, the group component
being the raw constructor argument. -/
abbrev OpSig := Nat × Nat × Nat × Option Nat

/-- A cache key: `(x.shape[0],) + self.signature` (line 327). -/
abbrev Sig := Nat × OpSig

/-- A cache value (lines 306-309): the winning kernel's forward entry point
and its measured time. -/
structure CacheEntry where
  fwd : TritonKernel
  time : Nat
deriving DecidableEq, Repr

/-- GEMLITE_TRITON_CACHE (line 185): the process-wide mapping from
signatures to resolved entries. -/
abbrev Cache := Sig → Option CacheEntry

/-- np.argmin over a python list of measured times (line 305): the index of
the first minimum, scanning left to right. An empty list would raise in
numpy; warmup never builds one for the kernel lists the constructor
installs, and the model returns 0 there. -/
def argminIdx (l : List Nat) : Nat :=
  (l.foldl
    (fun s v => if v < s.2.1 then (s.2.2, v, s.2.2 + 1) else (s.1, s.2.1, s.2.2 + 1))
    (0, l.headD 0, 0)).1

/-- GemLiteLinearTriton.warmup (lines 298-309): measures every kernel of
`self.kernels` except GEMV kernels when `signature[0] > 8` (line 302), then
stores `{"forward": self.kernels[indx].forward, "time": t[indx]}` with
`indx = np.argmin(t)` under the signature. The latencies returned by the
external `eval_time` collaborator during this pass are the oracle argument
`measure`. Note the source indexes the unfiltered `self.kernels` with an
index into the filtered `t`; for the installed kernel lists the GEMV kernel
is last, so the two indexings agree (an out-of-range index would raise in
python and is unreachable here; the model totalizes it with `getD`). -/
def warmupEntry (kernels : List TritonKernel) (measure : TritonKernel → Nat)
    (sig : Sig) : CacheEntry :=
  let cands := kernels.filter
    (fun k => !(decide (8 < sig.1) && decide (k.matmul_type = "GEMV")))
  let t := cands.map measure
  let indx := argminIdx t
  { fwd := kernels.getD indx TritonKernel.gemm_A16fWnO16f_int32packing,
    time := t.getD indx 0 }

def warmup (kernels : List TritonKernel) (measure : TritonKernel → Nat)
    (sig : Sig) (cache : Cache) : Cache :=
  fun s =>
    if s = sig then some (warmupEntry kernels measure sig)
    else cache s

/-- The signature a forward call looks up (line 327):
`(x.shape[0],) + self.signature`, with `xshape` the full shape of the
input tensor before the `view` of line 316 flattens its leading
dimensions. -/
def callSignature (opsig : OpSig) (xshape : List Nat) : Sig :=
  (xshape.headD 0, opsig)

/-- The row count of the `x.view(-1, x.shape[-1])` reshape of line 316: the
element count divided by the last dimension, i.e. the product of all
leading dimensions — the effective batch the kernel is invoked with. -/
def effRows (xshape : List Nat) : Nat := xshape.prod / xshape.getLastD 1

/-- One GemLiteLinearTriton.forward_auto call (lines 312-335), restricted
to its dispatch behaviour: look the call signature up in
GEMLITE_TRITON_CACHE, on a miss run warmup, then invoke the entry recorded
under the signature. Returns the kernel invoked, whether a benchmarking
pass ran, and the cache afterwards. -/
def forward_step (kernels : List TritonKernel) (measure : TritonKernel → Nat)
    (opsig : OpSig) (xshape : List Nat) (cache : Cache) :
    TritonKernel × Bool × Cache :=
  match cache (callSignature opsig xshape) with
  | some e => (e.fwd, false, cache)
  | none =>
    let c := warmup kernels measure (callSignature opsig xshape) cache
    (((c (callSignature opsig xshape)).getD
        { fwd := TritonKernel.gemm_A16fWnO16f_int32packing, time := 0 }).fwd,
     true, c)

/-- An arbitrary later forward call in the same process: its operator's
kernel list and signature, the latencies its warmup would measure, and its
input shape. -/
structure Call where
  kernels : List TritonKernel
  measure : TritonKernel → Nat
  opsig : OpSig
  xshape : List Nat

/-- Run a sequence of forward calls against the process-wide cache. -/
def runCalls (cache : Cache) (calls : List Call) : Cache :=
  calls.foldl
    (fun c k => (forward_step k.kernels k.measure k.opsig k.xshape c).2.2) cache

theorem warmup_writes (kernels : List TritonKernel) (measure : TritonKernel → Nat)
    (sig : Sig) (cache : Cache) :
    warmup kernels measure sig cache sig = some (warmupEntry kernels measure sig) := by
  unfold warmup
  rw [if_pos rfl]

theorem forward_step_preserves (kernels : List TritonKernel)
    (measure : TritonKernel → Nat) (opsig : OpSig) (xshape : List Nat)
    (cache : Cache) (s : Sig) (e : CacheEntry) (h : cache s = some e) :
    (forward_step kernels measure opsig xshape cache).2.2 s = some e := by
  unfold forward_step
  split
  · exact h
  · rename_i hnone
    unfold warmup
    simp only []
    rw [if_neg ?_]
    · exact h
    · intro hc
      subst hc
      rw [h] at hnone
      cases hnone

theorem runCalls_preserves (calls : List Call) (cache : Cache) (s : Sig)
    (e : CacheEntry) (h : cache s = some e) : runCalls cache calls s = some e := by
  induction calls generalizing cache with
  | nil => exact h
  | cons k ks ih =>
    exact ih _ (forward_step_preserves k.kernels k.measure k.opsig k.xshape cache s e h)

theorem forward_step_hit (kernels : List TritonKernel)
    (measure : TritonKernel → Nat) (opsig : OpSig) (xshape : List Nat)
    (cache : Cache) (e : CacheEntry) (h : cache (callSignature opsig xshape) = some e) :
    forward_step kernels measure opsig xshape cache = (e.fwd, false, cache) := by
  unfold forward_step
  rw [h]

/-- C2: once a signature is resolved it stays resolved with the same
kernel. For a first forward call on an unseen signature: the call runs the
benchmarking pass and the cache then records, under that signature, exactly
the kernel the call invoked; after any sequence of further forward calls
(any operators, shapes and measured latencies) the recorded entry is
unchanged; and a later call whose signature is equal invokes exactly the
recorded kernel, runs no benchmarking pass, and leaves the cache
untouched. -/
theorem triton_signature_stability
    (k1 k2 : List TritonKernel) (m1 m2 : TritonKernel → Nat) (opsig : OpSig)
    (x1 x2 : List Nat) (cache : Cache) (calls : List Call)
    (hmiss : cache (callSignature opsig x1) = none)
    (hsame : callSignature opsig x2 = callSignature opsig x1) :
    (forward_step k1 m1 opsig x1 cache).2.1 = true ∧
    (∃ t, (forward_step k1 m1 opsig x1 cache).2.2 (callSignature opsig x1)
        = some ⟨(forward_step k1 m1 opsig x1 cache).1, t⟩) ∧
    runCalls (forward_step k1 m1 opsig x1 cache).2.2 calls (callSignature opsig x1)
        = (forward_step k1 m1 opsig x1 cache).2.2 (callSignature opsig x1) ∧
    (forward_step k2 m2 opsig x2
        (runCalls (forward_step k1 m1 opsig x1 cache).2.2 calls)).1
      = (forward_step k1 m1 opsig x1 cache).1 ∧
    (forward_step k2 m2 opsig x2
        (runCalls (forward_step k1 m1 opsig x1 cache).2.2 calls)).2.1 = false ∧
    (forward_step k2 m2 opsig x2
        (runCalls (forward_step k1 m1 opsig x1 cache).2.2 calls)).2.2
      = runCalls (forward_step k1 m1 opsig x1 cache).2.2 calls := by
  have he := warmup_writes k1 m1 (callSignature opsig x1) cache
  set e := warmupEntry k1 m1 (callSignature opsig x1) with hedef
  have hstep : forward_step k1 m1 opsig x1 cache
      = (e.fwd, true, warmup k1 m1 (callSignature opsig x1) cache) := by
    unfold forward_step
    rw [hmiss]
    simp only [he, Option.getD_some]
  have hrec : (forward_step k1 m1 opsig x1 cache).2.2 (callSignature opsig x1)
      = some ⟨(forward_step k1 m1 opsig x1 cache).1, e.time⟩ := by
    rw [hstep]
    exact he
  have hpres : runCalls (forward_step k1 m1 opsig x1 cache).2.2 calls
      (callSignature opsig x1)
      = some ⟨(forward_step k1 m1 opsig x1 cache).1, e.time⟩ :=
    runCalls_preserves calls _ _ _ hrec
  have hhit := forward_step_hit k2 m2 opsig x2
    (runCalls (forward_step k1 m1 opsig x1 cache).2.2 calls)
    ⟨(forward_step k1 m1 opsig x1 cache).1, e.time⟩ (by rw [hsame]; exact hpres)
  refine ⟨by rw [hstep], ⟨e.time, hrec⟩, by rw [hpres, hrec], ?_, ?_, ?_⟩
  · rw [hhit]
  · rw [hhit]
  · rw [hhit]

/-- Witness for triton_signature_stability: an FP16 operator signature
`(1, 128, 128, 4, 64)`, an empty initial cache, one interleaved call with a
different batch size, and a second call with the same signature under a
different latency oracle. -/
theorem triton_signature_stability_witness :
    ((fun _ : Sig => (none : Option CacheEntry))
        (callSignature (128, 128, 4, some 64) [1, 128]) = none ∧
     callSignature (128, 128, 4, some 64) [1, 128]
        = callSignature (128, 128, 4, some 64) [1, 128]) ∧
    ((forward_step kernelsFP16 (fun _ => 3) (128, 128, 4, some 64) [1, 128]
        (fun _ => none)).2.1 = true ∧
     (∃ t, (forward_step kernelsFP16 (fun _ => 3) (128, 128, 4, some 64) [1, 128]
          (fun _ => none)).2.2 (callSignature (128, 128, 4, some 64) [1, 128])
        = some ⟨(forward_step kernelsFP16 (fun _ => 3) (128, 128, 4, some 64) [1, 128]
            (fun _ => none)).1, t⟩) ∧
     runCalls (forward_step kernelsFP16 (fun _ => 3) (128, 128, 4, some 64) [1, 128]
          (fun _ => none)).2.2
        [⟨kernelsFP16, fun _ => 5, (128, 128, 4, some 64), [16, 128]⟩]
        (callSignature (128, 128, 4, some 64) [1, 128])
      = (forward_step kernelsFP16 (fun _ => 3) (128, 128, 4, some 64) [1, 128]
          (fun _ => none)).2.2 (callSignature (128, 128, 4, some 64) [1, 128]) ∧
     (forward_step kernelsFP16 (fun _ => 7) (128, 128, 4, some 64) [1, 128]
        (runCalls (forward_step kernelsFP16 (fun _ => 3) (128, 128, 4, some 64)
            [1, 128] (fun _ => none)).2.2
          [⟨kernelsFP16, fun _ => 5, (128, 128, 4, some 64), [16, 128]⟩])).1
      = (forward_step kernelsFP16 (fun _ => 3) (128, 128, 4, some 64) [1, 128]
          (fun _ => none)).1 ∧
     (forward_step kernelsFP16 (fun _ => 7) (128, 128, 4, some 64) [1, 128]
        (runCalls (forward_step kernelsFP16 (fun _ => 3) (128, 128, 4, some 64)
            [1, 128] (fun _ => none)).2.2
          [⟨kernelsFP16, fun _ => 5, (128, 128, 4, some 64), [16, 128]⟩])).2.1
      = false ∧
     (forward_step kernelsFP16 (fun _ => 7) (128, 128, 4, some 64) [1, 128]
        (runCalls (forward_step kernelsFP16 (fun _ => 3) (128, 128, 4, some 64)
            [1, 128] (fun _ => none)).2.2
          [⟨kernelsFP16, fun _ => 5, (128, 128, 4, some 64), [16, 128]⟩])).2.2
      = runCalls (forward_step kernelsFP16 (fun _ => 3) (128, 128, 4, some 64)
            [1, 128] (fun _ => none)).2.2
          [⟨kernelsFP16, fun _ => 5, (128, 128, 4, some 64), [16, 128]⟩]) :=
  ⟨⟨rfl, rfl⟩,
   triton_signature_stability kernelsFP16 kernelsFP16 (fun _ => 3) (fun _ => 7)
     (128, 128, 4, some 64) [1, 128] [1, 128] (fun _ => none)
     [⟨kernelsFP16, fun _ => 5, (128, 128, 4, some 64), [16, 128]⟩] rfl rfl⟩

/-- C8: on a cache miss, warmup benchmarks every kernel of the operator's
kernel list except GEMV-family kernels when the signature's batch component
exceeds 8, and records the candidate with the lowest measured latency,
declaration order breaking ties (np.argmin returns the first minimum). For
the two kernel lists the constructor installs — FP16: [GEMM, GEMV], BF16:
[GEMM] — the candidate set drops exactly the GEMV kernel when the batch
exceeds 8, and the recorded entry is the GEMM kernel with its measured
time unless the GEMV kernel was benchmarked and measured strictly faster. -/
theorem triton_warmup_winner (m : TritonKernel → Nat) (sig : Sig) (cache : Cache) :
    (kernelsFP16.filter
        (fun k => !(decide (8 < sig.1) && decide (k.matmul_type = "GEMV")))
      = if 8 < sig.1 then [TritonKernel.gemm_A16fWnO16f_int32packing]
        else kernelsFP16) ∧
    (kernelsBF16.filter
        (fun k => !(decide (8 < sig.1) && decide (k.matmul_type = "GEMV")))
      = kernelsBF16) ∧
    (warmup kernelsFP16 m sig cache sig
      = some (if 8 < sig.1 then
                ⟨TritonKernel.gemm_A16fWnO16f_int32packing,
                 m TritonKernel.gemm_A16fWnO16f_int32packing⟩
              else if m TritonKernel.gemm_A16fWnO16f_int32packing
                      ≤ m TritonKernel.gemv_A16fWnO16f_int32packing then
                ⟨TritonKernel.gemm_A16fWnO16f_int32packing,
                 m TritonKernel.gemm_A16fWnO16f_int32packing⟩
              else
                ⟨TritonKernel.gemv_A16fWnO16f_int32packing,
                 m TritonKernel.gemv_A16fWnO16f_int32packing⟩)) ∧
    (warmup kernelsBF16 m sig cache sig
      = some ⟨TritonKernel.gemm_A16fWnO16f_int32packing,
              m TritonKernel.gemm_A16fWnO16f_int32packing⟩) := by
  have hgemm : decide
      (TritonKernel.matmul_type TritonKernel.gemm_A16fWnO16f_int32packing = "GEMV")
      = false := rfl
  have hgemv : decide
      (TritonKernel.matmul_type TritonKernel.gemv_A16fWnO16f_int32packing = "GEMV")
      = true := rfl
  by_cases hb : 8 < sig.1
  · refine ⟨?_, ?_, ?_, ?_⟩ <;>
      simp [kernelsFP16, kernelsBF16, warmup, warmupEntry, argminIdx,
        List.filter, hgemm, hgemv, decide_eq_true hb, hb]
  · by_cases hm :
      m TritonKernel.gemv_A16fWnO16f_int32packing
        < m TritonKernel.gemm_A16fWnO16f_int32packing
    · refine ⟨?_, ?_, ?_, ?_⟩ <;>
        simp [kernelsFP16, kernelsBF16, warmup, warmupEntry, argminIdx,
          List.filter, hgemm, hgemv, decide_eq_false hb, hb, hm,
          Nat.not_le.mpr hm]
    · refine ⟨?_, ?_, ?_, ?_⟩ <;>
        simp [kernelsFP16, kernelsBF16, warmup, warmupEntry, argminIdx,
          List.filter, hgemm, hgemv, decide_eq_false hb, hb, hm,
          Nat.not_lt.mp hm]

/-- C10: the autotune cache key's batch component is `x.shape[0]`, read
before the view flattens leading dimensions, while the kernel is invoked
with the product of all leading dimensions as effective batch. For a 3-D
input `(b, s, f)`: the key records `b` and the kernel sees `b*s` rows; two
calls with equal effective batch but different leading factorizations use
different cache keys; and two calls with equal `x.shape[0]` use the same
key — the same cache entry and identical dispatch — even when their
effective batches differ. -/
theorem triton_cache_key_batch_component (opsig : OpSig) (b s t f : Nat)
    (hb : 0 < b) (hf : 0 < f) :
    (callSignature opsig [b, s, f] = (b, opsig) ∧ effRows [b, s, f] = b * s) ∧
    (∀ b2 s2, b * s = b2 * s2 → (b, s) ≠ (b2, s2) →
      callSignature opsig [b, s, f] ≠ callSignature opsig [b2, s2, f]) ∧
    (callSignature opsig [b, t, f] = callSignature opsig [b, s, f] ∧
     (t ≠ s → effRows [b, t, f] ≠ effRows [b, s, f]) ∧
     (∀ (kernels : List TritonKernel) (measure : TritonKernel → Nat) (cache : Cache),
       forward_step kernels measure opsig [b, t, f] cache
         = forward_step kernels measure opsig [b, s, f] cache)) := by
  have heff : ∀ u : Nat, effRows [b, u, f] = b * u := by
    intro u
    have hlast : [b, u, f].getLastD 1 = f := rfl
    simp only [effRows, List.prod_cons, List.prod_nil, hlast]
    rw [Nat.mul_one, ← Nat.mul_assoc, Nat.mul_div_cancel _ hf]
  refine ⟨⟨rfl, heff s⟩, ?_, rfl, ?_, ?_⟩
  · intro b2 s2 hprod hne hc
    have hhead : b = b2 := by
      have := congrArg Prod.fst hc
      simpa [callSignature] using this
    subst hhead
    exact hne (by rw [Nat.eq_of_mul_eq_mul_left hb hprod])
  · intro hts hc
    rw [heff t, heff s] at hc
    exact hts (Nat.eq_of_mul_eq_mul_left hb hc)
  · intro kernels measure cache
    rfl

/-- Witness for triton_cache_key_batch_component: b = 2, s = 3, t = 5,
f = 128. -/
theorem triton_cache_key_batch_component_witness :
    ((0 : Nat) < 2 ∧ (0 : Nat) < 128) ∧
    ((callSignature (128, 128, 4, some 64) [2, 3, 128] = (2, (128, 128, 4, some 64)) ∧
      effRows [2, 3, 128] = 2 * 3) ∧
     (∀ b2 s2, 2 * 3 = b2 * s2 → (2, 3) ≠ (b2, s2) →
       callSignature (128, 128, 4, some 64) [2, 3, 128]
         ≠ callSignature (128, 128, 4, some 64) [b2, s2, 128]) ∧
     (callSignature (128, 128, 4, some 64) [2, 5, 128]
         = callSignature (128, 128, 4, some 64) [2, 3, 128] ∧
      (5 ≠ 3 → effRows [2, 5, 128] ≠ effRows [2, 3, 128]) ∧
      (∀ (kernels : List TritonKernel) (measure : TritonKernel → Nat) (cache : Cache),
        forward_step kernels measure (128, 128, 4, some 64) [2, 5, 128] cache
          = forward_step kernels measure (128, 128, 4, some 64) [2, 3, 128] cache))) :=
  ⟨⟨by decide, by decide⟩,
   triton_cache_key_batch_component (128, 128, 4, some 64) 2 3 5 128
     (by decide) (by decide)⟩

end GemLite
